import Mathlib

/-!
Verification of the ResearchScraper repository's specification against its
source code, via a shallow embedding of the relevant modules in Lean 4.

Modules embedded:
* `arxiv_fetcher/cache_manager.py`  — `CacheManager.get` / `CacheManager.set`
* `arxiv_fetcher/arxiv_client.py`   — rate limiting, date-window filter,
  category/query construction, all-or-nothing error handling
* `arxiv_fetcher/paper_downloader.py` — identifier resolution, directory
  sanitization, resumable download log
* `arxiv_fetcher/paper_summarizer.py` — by-date log consultation

Conventions: Python timestamps (`time.time()`, `datetime`) are modelled as
integers counting seconds; Python exceptions are modelled by an explicit
error type threaded through `Except`.
-/

namespace ResearchScraper

/-! ## JSON values and Python exceptions

`cache_manager.py` persists a JSON object mapping keys to
`{"timestamp": float, "data": value}`.  JSON numbers are modelled as `Int`
(the claims depend only on ordering of timestamps, not on float precision).
-/

inductive Json where
  | null
  | bool (b : Bool)
  | num (n : Int)
  | str (s : String)
  | arr (elems : List Json)
  | obj (entries : List (String × Json))

/-- The Python exceptions relevant to the embedded code paths. -/
inductive PyExc where
  | jsonDecodeError
  | keyError
  | typeError
  | unicodeDecodeError
  | fileNotFoundError
deriving DecidableEq

/-- The observable states of the persisted cache file, stratified by how far
the read pipeline (`open` with utf-8 decode, then `json.load`) can get:
the file may be missing, hold bytes that are not valid UTF-8, hold text that
is not valid JSON, or parse to a JSON value. -/
inductive CacheFileState where
  | absent
  | invalidUtf8
  | invalidJson
  | parsed (j : Json)

/-- Python substring test `needle in hay` on character lists. -/
def charsInfixOf (needle : List Char) : List Char → Bool
  | [] => needle.isEmpty
  | c :: rest => needle.isPrefixOf (c :: rest) || charsInfixOf needle rest

/-- Python `key in cache` for a JSON value read back by `json.load`:
dict membership on objects, element membership on arrays, substring test on
strings, and `TypeError` on non-container values. -/
def pyContains (j : Json) (key : String) : Except PyExc Bool :=
  match j with
  | .obj kvs => .ok (kvs.find? (fun kv => kv.1 == key)).isSome
  | .arr xs => .ok (xs.any (fun x => match x with | .str s => s == key | _ => false))
  | .str s => .ok (charsInfixOf key.toList s.toList)
  | _ => .error .typeError

/-- Python `value[key]` subscription with a string key: dict lookup
(`KeyError` when missing), `TypeError` on every non-dict value. -/
def pySubscript (j : Json) (key : String) : Except PyExc Json :=
  match j with
  | .obj kvs =>
    match kvs.find? (fun kv => kv.1 == key) with
    | some kv => .ok kv.2
    | none => .error .keyError
  | _ => .error .typeError

/-- Python numeric coercion as used in `time.time() - entry['timestamp']`:
numbers (and booleans, which are ints in Python) subtract fine, everything
else raises `TypeError`. -/
def asNumber (j : Json) : Except PyExc Int :=
  match j with
  | .num n => .ok n
  | .bool b => .ok (if b then 1 else 0)
  | _ => .error .typeError

/-! ## `CacheManager.get` (cache_manager.py lines 13–27) -/

/-- Body of the `try` block of `CacheManager.get`: decode and parse the
file, test membership, subscript the entry, compare the timestamp.  Errors
are the Python exceptions the corresponding operations raise. -/
def cacheGetTry (st : CacheFileState) (key : String) (now dur : Int) :
    Except PyExc (Option Json) :=
  match st with
  | .absent => .ok none
  | .invalidUtf8 => .error .unicodeDecodeError
  | .invalidJson => .error .jsonDecodeError
  | .parsed cache =>
    match pyContains cache key with
    | .error e => .error e
    | .ok false => .ok none
    | .ok true =>
      match pySubscript cache key with
      | .error e => .error e
      | .ok entry =>
        match pySubscript entry "timestamp" with
        | .error e => .error e
        | .ok ts =>
          match asNumber ts with
          | .error e => .error e
          | .ok t =>
            if now - t < dur then
              match pySubscript entry "data" with
              | .error e => .error e
              | .ok d => .ok (some d)
            else .ok none

/-- The `except (json.JSONDecodeError, KeyError, TypeError): return None`
clause of `CacheManager.get`: those three exceptions become `None`, any
other exception propagates. -/
def catchGetExcs (r : Except PyExc (Option Json)) : Except PyExc (Option Json) :=
  match r with
  | .ok v => .ok v
  | .error .jsonDecodeError => .ok none
  | .error .keyError => .ok none
  | .error .typeError => .ok none
  | .error e => .error e

/-- `CacheManager.get`: early `None` when the file does not exist, then the
`try` body with `except (json.JSONDecodeError, KeyError, TypeError)`
returning `None`; any other exception (notably `UnicodeDecodeError` from
reading non-UTF-8 bytes) propagates to the caller. -/
def cacheGet (st : CacheFileState) (key : String) (now dur : Int) :
    Except PyExc (Option Json) :=
  match st with
  | .absent => .ok none
  | st => catchGetExcs (cacheGetTry st key now dur)

/-! ## `CacheManager.set` (cache_manager.py lines 29–45) -/

/-- Python dict assignment `cache[key] = v` on an association list:
replace the first binding of `key`, else append.  (Objects produced by
`json.load` bind each key at most once.) -/
def assocSet (kvs : List (String × Json)) (key : String) (v : Json) :
    List (String × Json) :=
  match kvs with
  | [] => [(key, v)]
  | kv :: rest =>
    if kv.1 == key then (kv.1, v) :: rest else kv :: assocSet rest key v

/-- `CacheManager.set`: start from `{}`; if the file exists try to load it,
catching only `json.JSONDecodeError` (so non-UTF-8 bytes raise, and a file
parsing to a non-dict raises `TypeError` at the assignment); insert
`{"timestamp": now, "data": value}` under `key` and write the table back. -/
def cacheSet (st : CacheFileState) (key : String) (value : Json) (now : Int) :
    Except PyExc CacheFileState :=
  match st with
  | .invalidUtf8 => .error .unicodeDecodeError
  | .absent => .ok (.parsed (.obj (assocSet [] key (.obj [("timestamp", .num now), ("data", value)]))))
  | .invalidJson => .ok (.parsed (.obj (assocSet [] key (.obj [("timestamp", .num now), ("data", value)]))))
  | .parsed j =>
    match j with
    | .obj kvs => .ok (.parsed (.obj (assocSet kvs key (.obj [("timestamp", .num now), ("data", value)]))))
    | _ => .error .typeError

/-- The value `CacheManager.get` yields on a parsed cache file, as a total
function: the entry's payload when the key is bound to a well-shaped,
unexpired entry, `none` in every other (caught) situation.  Proved
equivalent to `cacheGet` on parsed files below. -/
def cacheLookupResult (j : Json) (key : String) (now dur : Int) : Option Json :=
  match j with
  | .obj kvs =>
    match kvs.find? (fun kv => kv.1 == key) with
    | none => none
    | some kv =>
      match kv.2 with
      | .obj fields =>
        match fields.find? (fun f => f.1 == "timestamp") with
        | none => none
        | some tskv =>
          match asNumber tskv.2 with
          | .error _ => none
          | .ok t =>
            if now - t < dur then
              match fields.find? (fun f => f.1 == "data") with
              | none => none
              | some dkv => some dkv.2
            else none
      | _ => none
  | _ => none

/-! ## `ArxivClient` (arxiv_client.py)

Datetimes are modelled as integer seconds since the epoch.  A published
field of the form `YYYY-MM-DD...` parsed by `strptime(published[:10],
'%Y-%m-%d')` yields midnight of the published day, modelled as
`publishedDay * secondsPerDay`.
-/

def secondsPerDay : Int := 86400

/-- `API_DELAY = 3` from `arxiv_fetcher/config.py`. -/
def API_DELAY : Int := 3

/-- The mutable state of one `ArxivClient` instance: `self.last_request_time`
(initialized to `0` in `__init__`). -/
structure ClientState where
  last_request_time : Int
deriving DecidableEq

/-- `ArxivClient._respect_rate_limit` with an idealized `time.sleep`: given
the current clock, return the clock value after the method finishes (the
time at which the subsequent request is issued) together with the updated
instance state. -/
def respectRateLimit (st : ClientState) (current : Int) : Int × ClientState :=
  if current - st.last_request_time < API_DELAY then
    let t := current + (API_DELAY - (current - st.last_request_time))
    (t, ⟨t⟩)
  else
    (current, ⟨current⟩)

/-- One element of the `categories` argument of `fetch_papers`: a tuple of
length 2 or 3, destructured by
`cat1, cat2, operator = combo if len(combo) == 3 else (*combo, 'AND')`. -/
inductive Combo where
  | pair (c1 : String) (c2 : Option String)
  | triple (c1 : String) (c2 : Option String) (op : String)
deriving DecidableEq

def comboParts : Combo → String × Option String × String
  | .pair c1 c2 => (c1, c2, "AND")
  | .triple c1 c2 op => (c1, c2, op)

/-- `if not categories: categories = [(DEFAULT_CATEGORY, None, 'AND')]` —
both `None` and the empty list are falsy, so both take the default branch.
`DEFAULT_CATEGORY` is imported from `.config` but defined by no config
module in the source, so it is a parameter `dc` here. -/
def normalizeCategories (dc : String) (categories : Option (List Combo)) : List Combo :=
  match categories with
  | none => [.triple dc none "AND"]
  | some [] => [.triple dc none "AND"]
  | some cs => cs

/-- Query construction for one combo: `f'cat:{cat1} {operator} cat:{cat2}'`
when `cat2` is truthy, else `f'cat:{cat1}'` (`None` and `""` are falsy). -/
def buildQuery (combo : Combo) : String :=
  match comboParts combo with
  | (c1, some c2, op) =>
    if c2 = "" then "cat:" ++ c1 else "cat:" ++ c1 ++ " " ++ op ++ " cat:" ++ c2
  | (c1, none, _) => "cat:" ++ c1

/-- One parsed Atom entry, as built in the loop body of `fetch_papers`.
The published timestamp is pre-split into its day (the `strptime` of the
first ten characters gives midnight of that day). -/
structure Entry where
  title : String
  authors : List String
  publishedDay : Int
  summary : String
  link : String
  categories : List String
deriving DecidableEq

/-- The date filter of `fetch_papers`:
`start_date <= pub_date <= end_date` where `end_date = datetime.now()`,
`start_date = end_date - timedelta(days=days)` and `pub_date` is midnight
of the published day. -/
def retainedByDate (now days pubMidnight : Int) : Bool :=
  decide (now - days * secondsPerDay ≤ pubMidnight) && decide (pubMidnight ≤ now)

/-- Outcome of the network-and-parse step for one category query:
a parsed entry list, a `urllib.error.URLError`, or an
`xml.etree.ElementTree.ParseError`. -/
inductive CatResult where
  | ok (entries : List Entry)
  | urlError (msg : String)
  | parseError (msg : String)
deriving DecidableEq

/-- The wrapping performed by
`raise Exception(f"Error fetching papers from arXiv: {str(e)}")`. -/
def wrapFetchError (msg : String) : String :=
  "Error fetching papers from arXiv: " ++ msg

/-- The per-category loop of `fetch_papers`, accumulating `all_papers`:
each successful query appends its date-filtered entries; the first
`URLError` or `ParseError` raises the wrapped exception, abandoning the
accumulator. -/
def fetchLoop (now days : Int) (acc : List Entry) :
    List CatResult → Except String (List Entry)
  | [] => .ok acc
  | .ok es :: rest =>
    fetchLoop now days
      (acc ++ es.filter (fun e => retainedByDate now days (e.publishedDay * secondsPerDay))) rest
  | .urlError m :: _ => .error (wrapFetchError m)
  | .parseError m :: _ => .error (wrapFetchError m)

/-- `ArxivClient.fetch_papers`: rate-limit once, normalize the category
list, then run one query per combo (`responses` maps each query string to
its network outcome), filtering by date and failing wholesale on the first
error. Returns the records together with the post-call client state. -/
def fetchPapers (dc : String) (responses : String → CatResult)
    (st : ClientState) (current : Int) (days : Int)
    (categories : Option (List Combo)) :
    Except String (List Entry) × ClientState :=
  let (t, st') := respectRateLimit st current
  let combos := normalizeCategories dc categories
  (fetchLoop t days [] ((combos.map buildQuery).map responses), st')

/-- The times at which the outbound requests of one `fetch_papers`
invocation are issued, with requests modelled as instantaneous:
`_respect_rate_limit` runs once before the loop, so every request of the
invocation is issued at the post-cooldown clock value. -/
def fetchRequestTimes (st : ClientState) (current : Int) (ncats : Nat) :
    List Int × ClientState :=
  let (t, st') := respectRateLimit st current
  (List.replicate ncats t, st')

/-! ## `PaperDownloader` (paper_downloader.py) -/

/-- Python `str.isalnum` restricted to ASCII titles, where it coincides
with `Char.isAlphanum`. -/
def pyIsAlnum (c : Char) : Bool := c.isAlphanum

/-- Python `str.strip()` on a character list: drop whitespace from both
ends. -/
def pyStrip (cs : List Char) : List Char :=
  ((cs.dropWhile Char.isWhitespace).reverse.dropWhile Char.isWhitespace).reverse

/-- The directory-name sanitizer of `_create_paper_dir`:
`"".join(c if c.isalnum() or c in [' ', '-'] else '_' for c in title)[:100].strip()`. -/
def sanitizeDirName (title : List Char) : List Char :=
  pyStrip ((title.map (fun c => if pyIsAlnum c || c = ' ' || c = '-' then c else '_')).take 100)

/-- The spec's §4.5 directory-naming rule, phrased from its words: keep
alphanumeric characters, spaces, and hyphens from the title, replace all
other characters with underscore, truncate to the fixed maximum length of
100, and trim surrounding whitespace. -/
def specDirectoryNamingRule (title : List Char) : List Char :=
  pyStrip (List.take 100 (title.map (fun c =>
    if c.isAlphanum || c = ' ' || c = '-' then c else '_')))

/-! ### Identifier extraction (`_extract_arxiv_id_from_link`)

The six regular expressions of `_extract_arxiv_id_from_link` are embedded
as deterministic matchers.  Each pattern has shape
"literal prefix, then `[0-9]+\.[0-9]+` optionally followed by `v[0-9]+`";
because a digit run cannot contain `.` or `v`, greedy matching without
backtracking is equivalent to the regex semantics, and `re.search` is the
leftmost position at which the whole pattern matches.
-/

/-- Match `[0-9]+` at the head: the (nonempty) maximal digit run and the
rest. -/
def digits1 (cs : List Char) : Option (List Char × List Char) :=
  let ds := cs.takeWhile Char.isDigit
  if ds.isEmpty then none else some (ds, cs.drop ds.length)

/-- Match `[0-9]+\.[0-9]+` at the head, returning the matched text and the
rest. -/
def matchNumDotNum (cs : List Char) : Option (List Char × List Char) :=
  match digits1 cs with
  | none => none
  | some (d1, r1) =>
    match r1 with
    | '.' :: r2 =>
      match digits1 r2 with
      | none => none
      | some (d2, r3) => some (d1 ++ '.' :: d2, r3)
    | _ => none

/-- Match `v[0-9]+` at the head, returning the matched text and the rest. -/
def matchVerSuffix (cs : List Char) : Option (List Char × List Char) :=
  match cs with
  | 'v' :: r =>
    match digits1 r with
    | none => none
    | some (ds, rest) => some ('v' :: ds, rest)
  | _ => none

/-- Match one of the four URL-shaped patterns at the head of `cs`: the
literal `lit` (e.g. `arxiv.org/abs/`), then the capture group
`[0-9]+\.[0-9]+` with (`ver = true`) or without a `v[0-9]+` suffix. -/
def matchUrlPatternAt (lit : List Char) (ver : Bool) (cs : List Char) :
    Option (List Char) :=
  if lit.isPrefixOf cs then
    match matchNumDotNum (cs.drop lit.length) with
    | none => none
    | some (core, rest) =>
      if ver then
        match matchVerSuffix rest with
        | none => none
        | some (vs, _) => some (core ++ vs)
      else some core
  else none

/-- `re.search` for one URL-shaped pattern: try to match at each position
from the left, returning the first capture. -/
def searchUrlPattern (lit : List Char) (ver : Bool) : List Char → Option (List Char)
  | [] => none
  | c :: rest =>
    match matchUrlPatternAt lit ver (c :: rest) with
    | some m => some m
    | none => searchUrlPattern lit ver rest

/-- The two anchored raw-id patterns `^([0-9]{4}\.[0-9]+(v[0-9]+)?)$`:
exactly four digits, a dot, a digit run, the optional version suffix, and
end of string. -/
def matchRawId (ver : Bool) (cs : List Char) : Option (List Char) :=
  let d4 := cs.take 4
  if d4.length = 4 && d4.all Char.isDigit then
    match cs.drop 4 with
    | '.' :: r =>
      match digits1 r with
      | none => none
      | some (d2, rest) =>
        if ver then
          match matchVerSuffix rest with
          | none => none
          | some (vs, rest2) =>
            if rest2.isEmpty then some (d4 ++ '.' :: d2 ++ vs) else none
        else
          if rest.isEmpty then some (d4 ++ '.' :: d2) else none
    | _ => none
  else none

/-- `_extract_arxiv_id_from_link`: the six patterns tried in order,
returning the first match's capture group. -/
def extractArxivIdFromLink (link : String) : Option String :=
  (searchUrlPattern ("arxiv.org/abs/".toList) true link.toList <|>
   searchUrlPattern ("arxiv.org/abs/".toList) false link.toList <|>
   searchUrlPattern ("arxiv.org/pdf/".toList) true link.toList <|>
   searchUrlPattern ("arxiv.org/pdf/".toList) false link.toList <|>
   matchRawId true link.toList <|>
   matchRawId false link.toList).map List.asString

/-! ### Identifier resolution (`_get_arxiv_id`) -/

/-- One element of a paper's `links` array: a dict (with or without an
`href`), a plain string, or some other value (skipped). -/
inductive LinkItem where
  | dict (href : Option String)
  | str (s : String)
  | other
deriving DecidableEq

/-- A value stored under one key of a paper dict.  The fields the resolver
consults hold strings (URL-shaped or raw-id) or, for `links`, a list; a
non-string value in a direct field would make `re.search` raise in the
source and lies outside the pipeline's data model. -/
inductive PVal where
  | str (s : String)
  | linkList (items : List LinkItem)
deriving DecidableEq

/-- A paper dict: association list of fields in insertion order. -/
def PaperDict : Type := List (String × PVal)

def lookupField (p : PaperDict) (f : String) : Option PVal :=
  (p.find? (fun kv => kv.1 == f)).map (fun kv => kv.2)

/-- The candidate fields tried first, in order (`_get_arxiv_id` line 63). -/
def directFields : List String := ["url", "pdf_url", "entry_id", "id", "link"]

/-- `possible_urls`: the truthy direct fields in precedence order, then the
entries of the `links` array (`href` of dict items, plain string items). -/
def possibleUrls (p : PaperDict) : List String :=
  (directFields.filterMap (fun f =>
    match lookupField p f with
    | some (.str s) => if s = "" then none else some s
    | _ => none)) ++
  (match lookupField p "links" with
   | some (.linkList items) =>
     items.filterMap (fun it =>
       match it with
       | .dict (some h) => some h
       | .str s => some s
       | _ => none)
   | _ => [])

/-- How `_get_arxiv_id` fails: the `ValueError` naming the available
fields (requires `paper['title']` to exist), the `KeyError` from formatting
the error message when `title` is absent, or the `TypeError` from passing a
non-string `arxiv_id` to `re.search`. -/
inductive IdError where
  | valueError (fields : List String)
  | keyError (field : String)
  | typeError
deriving DecidableEq

/-- `_get_arxiv_id`: try extraction on each possible URL in order; then the
`arxiv_id` field (extracted if it matches a pattern, else returned
verbatim); otherwise raise `ValueError` naming the paper's fields. -/
def getArxivId (p : PaperDict) : Except IdError String :=
  match (possibleUrls p).findSome? extractArxivIdFromLink with
  | some id => .ok id
  | none =>
    match lookupField p "arxiv_id" with
    | some (.str a) =>
      match extractArxivIdFromLink a with
      | some id => .ok id
      | none => .ok a
    | some (.linkList _) => .error .typeError
    | none =>
      match lookupField p "title" with
      | some _ => .error (.valueError (p.map (fun kv => kv.1)))
      | none => .error (.keyError "title")

/-! ### `download_papers` (paper_downloader.py lines 92–156) -/

/-- `paper['title']` where the title is known to be present (papers flowing
through `download_papers` carry a title; a titleless paper would raise
`KeyError` at the first progress print in the source). -/
def titleOf (p : PaperDict) : String :=
  match lookupField p "title" with
  | some (.str t) => t
  | _ => ""

/-- The artifact directory name `_create_paper_dir` derives for a paper. -/
def paperDirOf (p : PaperDict) : String :=
  (sanitizeDirName (titleOf p).toList).asString

/-- The externally observable state of one `download_papers` run:
the keys of `download_log['papers']` in insertion order, the set of
artifact directories that exist (`mkdir` with `exist_ok=True`), and the
number of side-effecting download attempts (`arxiv.Search` plus
`download_pdf`). -/
structure DLState where
  logIds : List String
  dirs : List String
  networkCalls : Nat
deriving DecidableEq

/-- The loop body of `download_papers` for one paper: resolution failure
prints and continues; an id already in the log short-circuits before any
directory creation or network activity; otherwise the directory is created
and the download attempted, the log gaining the id only on success
(`downloadOk` tells whether `download_pdf` succeeds for the paper). -/
def stepPaper (downloadOk : PaperDict → Bool) (st : DLState) (p : PaperDict) :
    DLState :=
  match getArxivId p with
  | .error _ => st
  | .ok id =>
    if id ∈ st.logIds then st
    else
      let d := paperDirOf p
      let dirs := if d ∈ st.dirs then st.dirs else st.dirs ++ [d]
      if downloadOk p then
        { logIds := st.logIds ++ [id], dirs := dirs, networkCalls := st.networkCalls + 1 }
      else
        { logIds := st.logIds, dirs := dirs, networkCalls := st.networkCalls + 1 }

/-- `download_papers` over the papers of the input file, starting from the
state recorded by the loaded download log. -/
def downloadPapers (downloadOk : PaperDict → Bool) (st : DLState)
    (papers : List PaperDict) : DLState :=
  papers.foldl (stepPaper downloadOk) st

/-- The canonical ids the papers of a run resolve to, in order. -/
def idsOf (papers : List PaperDict) : List String :=
  papers.filterMap (fun p => (getArxivId p).toOption)

/-- The artifact directory names of a run's papers, in order. -/
def dirsOf (papers : List PaperDict) : List String :=
  papers.map paperDirOf

/-! ## Download log and `PaperSummarizer.process_papers` -/

/-- One value of the job-log's `papers` mapping. -/
structure LogEntry where
  downloaded_at : String
  title : String
  directory : String
deriving DecidableEq

/-- The parsed `.download_log.json` contents. -/
structure LogData where
  papers : List (String × LogEntry)
deriving DecidableEq

/-- `PaperDownloader._load_download_log`: the parsed file when it exists,
else `{"papers": {}}` — absence is an empty log, never an error. -/
def loadDownloadLog (file : Option LogData) : LogData :=
  match file with
  | some d => d
  | none => ⟨[]⟩

/-- Python `s.split("/")[-1]`. -/
def lastPathComponent (s : String) : String :=
  (s.splitOn "/").getLastD ""

/-- The by-date branch of `PaperSummarizer.process_papers` (lines 80–93):
when the download log file does not exist it raises
`FileNotFoundError("Download log not found")`; otherwise it selects the
directory basenames of the entries whose `downloaded_at` starts with the
given date. -/
def summarizerTitlesByDate (file : Option LogData) (date : String) :
    Except PyExc (List String) :=
  match file with
  | none => .error .fileNotFoundError
  | some d =>
    .ok ((d.papers.filter (fun kv => date.isPrefixOf kv.2.downloaded_at)).map
      (fun kv => lastPathComponent kv.2.directory))

/-- Top-level names defined in `src/arxiv_fetcher/config.py`. -/
def arxivFetcherConfigNames : List String :=
  ["ARXIV_CATEGORIES", "ARXIV_API_URL", "API_DELAY", "MAX_RESULTS",
   "QUERY_COMBINATIONS", "CACHE_DURATION", "CACHE_FILE",
   "MAX_ABSTRACT_LENGTH", "DATE_FORMAT"]

/-- Top-level names defined in `src/config.py`. -/
def topLevelConfigNames : List String :=
  ["ARXIV_API_URL", "API_DELAY", "MAX_RESULTS", "QUERY_COMBINATIONS",
   "CACHE_DURATION", "CACHE_FILE", "MAX_ABSTRACT_LENGTH", "DATE_FORMAT"]

/-! ## Helper lemmas -/

theorem pyStrip_length_le (cs : List Char) : (pyStrip cs).length ≤ cs.length := by
  have h1 : ∀ (l : List Char), (l.dropWhile Char.isWhitespace).length ≤ l.length :=
    fun l => (List.dropWhile_sublist Char.isWhitespace).length_le
  calc (pyStrip cs).length
      = ((cs.dropWhile Char.isWhitespace).reverse.dropWhile Char.isWhitespace).length := by
        simp [pyStrip]
    _ ≤ (cs.dropWhile Char.isWhitespace).reverse.length := h1 _
    _ ≤ cs.length := by
        simpa using h1 cs

theorem asNumber_error (j : Json) (e : PyExc) (h : asNumber j = .error e) :
    e = .typeError := by
  cases j <;> simp_all [asNumber]

theorem assocSet_find (key : String) (v : Json) :
    ∀ kvs : List (String × Json),
      (assocSet kvs key v).find? (fun kv => kv.1 == key) = some (key, v)
  | [] => by simp [assocSet, List.find?]
  | kv :: rest => by
    cases hb : kv.1 == key with
    | true =>
      have hk : kv.1 = key := eq_of_beq hb
      simp [assocSet, hb, List.find?, hk]
    | false =>
      simpa [assocSet, hb, List.find?] using assocSet_find key v rest

theorem cacheSet_ok (st : CacheFileState) (key : String) (value : Json)
    (now : Int) (st' : CacheFileState)
    (h : cacheSet st key value now = .ok st') :
    ∃ kvs, st' = .parsed (.obj
      (assocSet kvs key (.obj [("timestamp", .num now), ("data", value)]))) := by
  cases st with
  | invalidUtf8 => simp [cacheSet] at h
  | absent =>
    refine ⟨[], ?_⟩
    simp [cacheSet] at h
    exact h.symm
  | invalidJson =>
    refine ⟨[], ?_⟩
    simp [cacheSet] at h
    exact h.symm
  | parsed j =>
    cases j with
    | obj kvs =>
      refine ⟨kvs, ?_⟩
      simp [cacheSet] at h
      exact h.symm
    | null => simp [cacheSet] at h
    | bool b => simp [cacheSet] at h
    | num n => simp [cacheSet] at h
    | str s => simp [cacheSet] at h
    | arr xs => simp [cacheSet] at h

/-- On a cache file that parsed to a JSON value, `CacheManager.get` never
raises and returns exactly `cacheLookupResult`. -/
theorem cacheGet_parsed (j : Json) (key : String) (now dur : Int) :
    cacheGet (.parsed j) key now dur = .ok (cacheLookupResult j key now dur) := by
  cases j with
  | null => rfl
  | bool b => rfl
  | num n => rfl
  | str s =>
    cases hb : charsInfixOf key.data s.data <;>
      simp [cacheGet, cacheGetTry, catchGetExcs, pyContains, pySubscript,
        cacheLookupResult, String.toList, hb]
  | arr xs =>
    cases hb : xs.any (fun x => match x with | .str s => s == key | _ => false) <;>
      simp [cacheGet, cacheGetTry, catchGetExcs, pyContains, pySubscript,
        cacheLookupResult, hb]
  | obj kvs =>
    cases hf : kvs.find? (fun kv => kv.1 == key) with
    | none =>
      simp [cacheGet, cacheGetTry, catchGetExcs, pyContains, cacheLookupResult, hf]
    | some kv =>
      cases hv : kv.2 with
      | obj fields =>
        cases hts : fields.find? (fun f => f.1 == "timestamp") with
        | none =>
          simp [cacheGet, cacheGetTry, catchGetExcs, pyContains, pySubscript,
            cacheLookupResult, hf, hv, hts]
        | some tskv =>
          cases hn : asNumber tskv.2 with
          | error e =>
            have he : e = .typeError := asNumber_error _ _ hn
            subst he
            simp [cacheGet, cacheGetTry, catchGetExcs, pyContains, pySubscript,
              cacheLookupResult, hf, hv, hts, hn]
          | ok t =>
            by_cases hlt : now - t < dur
            · cases hd : fields.find? (fun f => f.1 == "data") with
              | none =>
                simp [cacheGet, cacheGetTry, catchGetExcs, pyContains, pySubscript,
                  cacheLookupResult, hf, hv, hts, hn, hlt, hd]
              | some dkv =>
                simp [cacheGet, cacheGetTry, catchGetExcs, pyContains, pySubscript,
                  cacheLookupResult, hf, hv, hts, hn, hlt, hd]
            · simp [cacheGet, cacheGetTry, catchGetExcs, pyContains, pySubscript,
                cacheLookupResult, hf, hv, hts, hn, hlt]
      | null =>
        simp [cacheGet, cacheGetTry, catchGetExcs, pyContains, pySubscript,
          cacheLookupResult, hf, hv]
      | bool b =>
        simp [cacheGet, cacheGetTry, catchGetExcs, pyContains, pySubscript,
          cacheLookupResult, hf, hv]
      | num n =>
        simp [cacheGet, cacheGetTry, catchGetExcs, pyContains, pySubscript,
          cacheLookupResult, hf, hv]
      | str s =>
        simp [cacheGet, cacheGetTry, catchGetExcs, pyContains, pySubscript,
          cacheLookupResult, hf, hv]
      | arr xs =>
        simp [cacheGet, cacheGetTry, catchGetExcs, pyContains, pySubscript,
          cacheLookupResult, hf, hv]

theorem findSome?_none_of_all {α β : Type} (f : α → Option β) :
    ∀ l : List α, (∀ x ∈ l, f x = none) → l.findSome? f = none := by
  intro l
  induction l with
  | nil => intro _; rfl
  | cons x rest ih =>
    intro h
    rw [List.findSome?_cons, h x (List.mem_cons_self x rest)]
    exact ih (fun y hy => h y (List.mem_cons_of_mem x hy))

theorem fetchLoop_error (now days : Int) :
    ∀ (results : List CatResult) (acc : List Entry),
      (∃ m, CatResult.urlError m ∈ results ∨ CatResult.parseError m ∈ results) →
      ∃ msg, fetchLoop now days acc results = .error (wrapFetchError msg) := by
  intro results
  induction results with
  | nil =>
    intro acc h
    simp at h
  | cons r rest ih =>
    intro acc h
    obtain ⟨m, hm⟩ := h
    cases r with
    | ok es =>
      have hm' : CatResult.urlError m ∈ rest ∨ CatResult.parseError m ∈ rest := by
        rcases hm with hmem | hmem
        · rcases List.mem_cons.mp hmem with heq | h2
          · exact absurd heq (by simp)
          · exact Or.inl h2
        · rcases List.mem_cons.mp hmem with heq | h2
          · exact absurd heq (by simp)
          · exact Or.inr h2
      simpa [fetchLoop] using ih _ ⟨m, hm'⟩
    | urlError m2 => exact ⟨m2, by simp [fetchLoop]⟩
    | parseError m2 => exact ⟨m2, by simp [fetchLoop]⟩

theorem stepPaper_skip (ok : PaperDict → Bool) (st : DLState) (p : PaperDict)
    (id : String) (hid : getArxivId p = .ok id) (hmem : id ∈ st.logIds) :
    stepPaper ok st p = st := by
  simp [stepPaper, hid, hmem]

theorem downloadPapers_skip (ok : PaperDict → Bool) :
    ∀ (papers : List PaperDict) (st : DLState),
      (∀ p ∈ papers, ∃ id, getArxivId p = .ok id ∧ id ∈ st.logIds) →
      downloadPapers ok st papers = st := by
  intro papers
  induction papers with
  | nil => intro st _; rfl
  | cons p rest ih =>
    intro st h
    obtain ⟨id, hid, hmem⟩ := h p (List.mem_cons_self p rest)
    have hrec : downloadPapers ok st (p :: rest) =
        downloadPapers ok (stepPaper ok st p) rest := rfl
    rw [hrec, stepPaper_skip ok st p id hid hmem]
    exact ih st (fun q hq => h q (List.mem_cons_of_mem p hq))

theorem idsOf_cons_ok (p : PaperDict) (rest : List PaperDict) (id : String)
    (hid : getArxivId p = .ok id) :
    idsOf (p :: rest) = id :: idsOf rest := by
  simp [idsOf, List.filterMap_cons, hid, Except.toOption]

theorem stepPaper_logNodup (ok : PaperDict → Bool) (st : DLState) (p : PaperDict)
    (h : st.logIds.Nodup) : (stepPaper ok st p).logIds.Nodup := by
  cases hid : getArxivId p with
  | error e => simpa [stepPaper, hid] using h
  | ok id =>
    by_cases hmem : id ∈ st.logIds
    · simpa [stepPaper, hid, hmem] using h
    · by_cases hok : ok p = true
      · simp [stepPaper, hid, hmem, hok, List.nodup_append, h]
      · simpa [stepPaper, hid, hmem, hok] using h

theorem downloadPapers_logNodup (ok : PaperDict → Bool) :
    ∀ (papers : List PaperDict) (st : DLState),
      st.logIds.Nodup → (downloadPapers ok st papers).logIds.Nodup := by
  intro papers
  induction papers with
  | nil => intro st h; exact h
  | cons p rest ih =>
    intro st h
    exact ih (stepPaper ok st p) (stepPaper_logNodup ok st p h)

theorem downloadPapers_fresh (ok : PaperDict → Bool) :
    ∀ (papers : List PaperDict) (st : DLState),
      (∀ p ∈ papers, ∃ id, getArxivId p = .ok id) →
      (∀ p ∈ papers, ok p = true) →
      (idsOf papers).Nodup →
      (∀ i ∈ idsOf papers, i ∉ st.logIds) →
      (dirsOf papers).Nodup →
      (∀ d ∈ dirsOf papers, d ∉ st.dirs) →
      downloadPapers ok st papers =
        ⟨st.logIds ++ idsOf papers, st.dirs ++ dirsOf papers,
          st.networkCalls + papers.length⟩ := by
  intro papers
  induction papers with
  | nil =>
    intro st _ _ _ _ _ _
    simp [downloadPapers, idsOf, dirsOf]
  | cons p rest ih =>
    intro st h1 h2 hnodid hfreshid hnoddir hfreshdir
    obtain ⟨id, hid⟩ := h1 p (List.mem_cons_self p rest)
    have hidcons := idsOf_cons_ok p rest id hid
    have hdircons : dirsOf (p :: rest) = paperDirOf p :: dirsOf rest := rfl
    have hidfresh : id ∉ st.logIds := by
      refine hfreshid id ?_
      rw [hidcons]
      exact List.mem_cons_self _ _
    have hdfresh : paperDirOf p ∉ st.dirs := by
      refine hfreshdir _ ?_
      rw [hdircons]
      exact List.mem_cons_self _ _
    have hok : ok p = true := h2 p (List.mem_cons_self p rest)
    have hstep : stepPaper ok st p =
        ⟨st.logIds ++ [id], st.dirs ++ [paperDirOf p], st.networkCalls + 1⟩ := by
      simp [stepPaper, hid, hidfresh, hdfresh, hok]
    have hidtail : id ∉ idsOf rest := by
      rw [hidcons] at hnodid
      exact (List.nodup_cons.mp hnodid).1
    have hdtail : paperDirOf p ∉ dirsOf rest := by
      rw [hdircons] at hnoddir
      exact (List.nodup_cons.mp hnoddir).1
    have hrun : downloadPapers ok st (p :: rest) =
        downloadPapers ok (stepPaper ok st p) rest := rfl
    rw [hrun, hstep]
    rw [ih ⟨st.logIds ++ [id], st.dirs ++ [paperDirOf p], st.networkCalls + 1⟩
      (fun q hq => h1 q (List.mem_cons_of_mem p hq))
      (fun q hq => h2 q (List.mem_cons_of_mem p hq))
      (by rw [hidcons] at hnodid; exact (List.nodup_cons.mp hnodid).2)
      (by
        intro i hi
        have hnotst : i ∉ st.logIds := by
          refine hfreshid i ?_
          rw [hidcons]
          exact List.mem_cons_of_mem _ hi
        have hne : i ≠ id := by
          intro heq
          exact hidtail (heq ▸ hi)
        simp [List.mem_append, hnotst, hne])
      (by rw [hdircons] at hnoddir; exact (List.nodup_cons.mp hnoddir).2)
      (by
        intro d hd
        have hnotst : d ∉ st.dirs := by
          refine hfreshdir d ?_
          rw [hdircons]
          exact List.mem_cons_of_mem _ hd
        have hne : d ≠ paperDirOf p := by
          intro heq
          exact hdtail (heq ▸ hd)
        simp [List.mem_append, hnotst, hne])]
    rw [hidcons, hdircons]
    simp [List.append_assoc]
    omega

end ResearchScraper

namespace ResearchScraper

/-! ## Claims -/

/-- C10: calling `fetch_papers` with an empty category list behaves exactly
like calling it with `None`: both take the default branch and issue exactly
one single-category query `cat:<DEFAULT_CATEGORY>`; and the name
`DEFAULT_CATEGORY` that this branch imports is defined by neither config
module of the source. -/
theorem c10_empty_categories_default :
    (∀ dc : String,
      normalizeCategories dc none = normalizeCategories dc (some []) ∧
      (normalizeCategories dc (some [])).map buildQuery = ["cat:" ++ dc] ∧
      ((normalizeCategories dc (some [])).map buildQuery).length = 1) ∧
    "DEFAULT_CATEGORY" ∉ arxivFetcherConfigNames ∧
    "DEFAULT_CATEGORY" ∉ topLevelConfigNames := by
  refine ⟨fun dc => ⟨rfl, rfl, rfl⟩, by decide, by decide⟩

/-- C9: the artifact directory name keeps alphanumerics, spaces, and
hyphens, replaces every other character with an underscore, truncates to
100 characters, and trims surrounding whitespace (exactly the spec's §4.5
naming rule); the result never exceeds 100 characters; and distinct titles
can sanitize to the same name, with no disambiguation in the function. -/
theorem c9_directory_sanitization :
    (∀ t : List Char, sanitizeDirName t = specDirectoryNamingRule t) ∧
    (∀ t : List Char, (sanitizeDirName t).length ≤ 100) ∧
    (sanitizeDirName ("a/b".toList) = sanitizeDirName ("a:b".toList) ∧
      "a/b".toList ≠ "a:b".toList) := by
  refine ⟨fun t => rfl, fun t => ?_, by decide, by decide⟩
  calc (sanitizeDirName t).length
      ≤ ((t.map (fun c => if pyIsAlnum c || c = ' ' || c = '-' then c else '_')).take 100).length :=
        pyStrip_length_le _
    _ ≤ 100 := by simp [List.length_take]

/-- C8 counterexample: the summarize stage also consults the download log,
and when the backing file is absent its by-date path raises
`FileNotFoundError` instead of yielding an empty log — refuting the claim
that every stage treats an absent log file as empty and never raises. -/
theorem c8_counterexample :
    summarizerTitlesByDate none "2024-01-01" = .error PyExc.fileNotFoundError := rfl

/-- C8 (amended): loading the download log in the download stage yields the
empty log `{"papers": {}}` when the backing file does not exist and never
raises; the summarize stage's by-date selection instead raises
`FileNotFoundError` whenever the log file is absent. -/
theorem c8_amended_log_absence :
    loadDownloadLog none = ⟨[]⟩ ∧
    (∀ d : LogData, loadDownloadLog (some d) = d) ∧
    (∀ date : String, summarizerTitlesByDate none date = .error PyExc.fileNotFoundError) := by
  exact ⟨rfl, fun d => rfl, fun date => rfl⟩

/-- C3 counterexample: `_respect_rate_limit` runs once per `fetch_papers`
invocation, before the per-category loop, so an invocation with two
category combos issues its two outbound requests back to back: starting
from a fresh client (`last_request_time = 0`) at time 100, both requests go
out at time 100, closer together (gap 0) than the configured delay of 3
seconds — refuting the claim that the delay is enforced before each
outbound call. -/
theorem c3_counterexample :
    (fetchRequestTimes ⟨0⟩ 100 2).1 = [100, 100] ∧
    (100 : Int) - 100 < API_DELAY := by
  exact ⟨rfl, by decide⟩

/-- C3 (amended): the minimum inter-request delay is enforced once per
`fetch_papers` invocation, before its first outbound call: the invocation's
requests are issued no earlier than `API_DELAY` after the instance's
recorded previous request time, and that time is updated to the new issue
time; but all requests of one invocation (one per category combo) are
issued at the same post-cooldown instant, with no enforced delay between
them. -/
theorem c3_amended_rate_limit :
    ∀ (st : ClientState) (current : Int) (n : Nat),
      API_DELAY ≤ (respectRateLimit st current).1 - st.last_request_time ∧
      (respectRateLimit st current).2.last_request_time = (respectRateLimit st current).1 ∧
      (fetchRequestTimes st current n).1 = List.replicate n (respectRateLimit st current).1 := by
  intro st current n
  refine ⟨?_, ?_, ?_⟩
  · unfold respectRateLimit
    split
    · simp only
      omega
    · simp only
      omega
  · unfold respectRateLimit
    split <;> rfl
  · rfl

/-- C2 counterexample: the date filter compares the record's *midnight*
timestamp against `now - windowDays` where `now` retains the current
time-of-day; at one second past midnight of day 7 with a 7-day window, a
record published exactly `windowDays` (seven) days earlier — midnight of
day 0 — is excluded, refuting the claimed inclusivity of the lower bound
at day granularity. -/
theorem c2_counterexample :
    (fetchPapers "cs.AI" (fun _ => .ok [⟨"T", [], 0, "S", "L", []⟩])
        ⟨0⟩ (7 * secondsPerDay + 1) 7 none).1 = .ok [] ∧
    retainedByDate (7 * secondsPerDay + 1) 7 (0 * secondsPerDay) = false ∧
    (7 * secondsPerDay + 1) / secondsPerDay - 7 = 0 := by
  refine ⟨rfl, by decide, by decide⟩

/-- C2 (amended): a fetched record is retained iff the midnight timestamp
of its published date lies in `[now - windowDays·86400, now]` where `now`
includes the current time-of-day.  Consequently a record published today is
included and one published `windowDays + 1` days ago is excluded, as
claimed (for windows of at least one day), but a record published exactly
`windowDays` days ago is included iff the fetch happens exactly at
midnight. -/
theorem c2_amended_date_window :
    ∀ today tod days : Int, 0 ≤ tod → tod < secondsPerDay → 1 ≤ days →
      retainedByDate (today * secondsPerDay + tod) days (today * secondsPerDay) = true ∧
      retainedByDate (today * secondsPerDay + tod) days ((today - (days + 1)) * secondsPerDay) = false ∧
      (retainedByDate (today * secondsPerDay + tod) days ((today - days) * secondsPerDay) = true ↔ tod = 0) := by
  intro today tod days h0 h1 h2
  simp only [retainedByDate, secondsPerDay, Bool.and_eq_true, decide_eq_true_eq,
    Bool.and_eq_false_iff, decide_eq_false_iff_not] at h1 ⊢
  constructor
  · omega
  constructor
  · omega
  · omega

/-- C4: for every key and value, a successful `set(K, V)` followed
immediately by `get(K)` (same clock reading, positive configured duration)
returns V; and on a stored well-shaped entry, `get` returns the payload
exactly when `now - stored_timestamp < cache_duration`, so once the
duration has elapsed it returns absent. -/
theorem c4_cache_roundtrip_expiry :
    (∀ (st : CacheFileState) (key : String) (value : Json) (now dur : Int)
        (st' : CacheFileState),
      0 < dur → cacheSet st key value now = .ok st' →
      cacheGet st' key now dur = .ok (some value)) ∧
    (∀ (kvs : List (String × Json)) (key : String) (ts : Int) (d : Json)
        (now dur : Int),
      kvs.find? (fun kv => kv.1 == key) =
        some (key, .obj [("timestamp", .num ts), ("data", d)]) →
      cacheGet (.parsed (.obj kvs)) key now dur =
        .ok (if now - ts < dur then some d else none)) := by
  constructor
  · intro st key value now dur st' hdur hset
    obtain ⟨kvs, rfl⟩ := cacheSet_ok st key value now st' hset
    rw [cacheGet_parsed]
    have hz : now - now < dur := by omega
    simp [cacheLookupResult, assocSet_find key _ kvs, List.find?, asNumber, hz]
    omega
  · intro kvs key ts d now dur hf
    rw [cacheGet_parsed]
    simp [cacheLookupResult, hf, List.find?, asNumber]

/-- C4 witness: with duration 3600, setting `"query"` to `"payload"` at
time 1000 on an absent cache file then reading it back at time 1000 yields
the payload; at time 4600 (duration elapsed) it yields absent. -/
theorem c4_witness :
    (0 : Int) < 3600 ∧
    cacheSet .absent "query" (.str "payload") 1000 =
      .ok (.parsed (.obj [("query", .obj [("timestamp", .num 1000), ("data", .str "payload")])])) ∧
    cacheGet (.parsed (.obj [("query", .obj [("timestamp", .num 1000), ("data", .str "payload")])]))
      "query" 1000 3600 = .ok (some (.str "payload")) ∧
    cacheGet (.parsed (.obj [("query", .obj [("timestamp", .num 1000), ("data", .str "payload")])]))
      "query" 4600 3600 = .ok none := by
  refine ⟨by decide, rfl, ?_, ?_⟩
  · exact c4_cache_roundtrip_expiry.1 .absent "query" (.str "payload") 1000 3600 _
      (by decide) rfl
  · have h := c4_cache_roundtrip_expiry.2
      [("query", .obj [("timestamp", .num 1000), ("data", .str "payload")])]
      "query" 1000 (.str "payload") 4600 3600 (by simp [List.find?])
    simpa using h

/-- C5 counterexample: a cache file whose bytes are not valid UTF-8 is
structural corruption on which `CacheManager.get` raises
(`UnicodeDecodeError` is none of the three caught exception types) —
refuting the claim that `get` never raises on any content of the persisted
file. -/
theorem c5_counterexample :
    cacheGet .invalidUtf8 "key" 0 3600 = .error PyExc.unicodeDecodeError := rfl

/-- C5 (amended): `get` treats corruption at the JSON or entry-shape level
as a full cache miss — text that is not valid JSON yields absent, and for
any parsed JSON table `get` never raises (returning absent whenever no
valid unexpired entry exists) — but a persisted file whose bytes do not
decode as UTF-8 makes `get` raise `UnicodeDecodeError` to the caller. -/
theorem c5_amended_corruption_miss :
    (∀ (key : String) (now dur : Int), cacheGet .invalidJson key now dur = .ok none) ∧
    (∀ (st : CacheFileState) (key : String) (now dur : Int),
      st ≠ CacheFileState.invalidUtf8 → ∃ v, cacheGet st key now dur = .ok v) := by
  constructor
  · intro key now dur
    rfl
  · intro st key now dur hne
    cases st with
    | absent => exact ⟨none, rfl⟩
    | invalidUtf8 => exact absurd rfl hne
    | invalidJson => exact ⟨none, rfl⟩
    | parsed j => exact ⟨cacheLookupResult j key now dur, cacheGet_parsed j key now dur⟩

/-- C5 witness: a cache file holding garbage text that is not valid JSON
is not the UTF-8-invalid state, and `get` on it returns (without raising). -/
theorem c5_witness :
    CacheFileState.invalidJson ≠ CacheFileState.invalidUtf8 ∧
    (∃ v, cacheGet .invalidJson "anykey" 0 3600 = .ok v) := by
  refine ⟨(fun h => nomatch h), ?_⟩
  exact c5_amended_corruption_miss.2 .invalidJson "anykey" 0 3600 (fun h => nomatch h)

/-- C2 witness for the amended date-window statement: on day 19700 at one
second past midnight with a 7-day window, a record published that day is
retained, one published 8 days earlier is not, and the record published
exactly 7 days earlier is not retained since the time-of-day is nonzero. -/
theorem c2_witness :
    (0 : Int) ≤ 1 ∧ (1 : Int) < secondsPerDay ∧ (1 : Int) ≤ 7 ∧
    (retainedByDate (19700 * secondsPerDay + 1) 7 (19700 * secondsPerDay) = true ∧
      retainedByDate (19700 * secondsPerDay + 1) 7 ((19700 - (7 + 1)) * secondsPerDay) = false ∧
      (retainedByDate (19700 * secondsPerDay + 1) 7 ((19700 - 7) * secondsPerDay) = true ↔ (1 : Int) = 0)) := by
  refine ⟨by decide, by decide, by decide, ?_⟩
  exact c2_amended_date_window 19700 1 7 (by decide) (by decide) (by decide)

/-- C6: if any category query of a `fetch_papers` invocation hits a
network error (`URLError`) or a malformed-response error (`ParseError`),
the entire invocation fails with the single wrapped descriptive error and
returns no records — entries already accumulated from categories processed
before the failure are abandoned with the raise, never returned as a
partial success (whatever the accumulator held). -/
theorem c6_fetch_all_or_nothing :
    (∀ (now days : Int) (acc : List Entry) (results : List CatResult),
      (∃ m, CatResult.urlError m ∈ results ∨ CatResult.parseError m ∈ results) →
      ∃ msg, fetchLoop now days acc results = .error (wrapFetchError msg)) ∧
    (∀ (dc : String) (responses : String → CatResult) (st : ClientState)
        (current days : Int) (categories : Option (List Combo)),
      (∃ q ∈ (normalizeCategories dc categories).map buildQuery,
        ∃ m, responses q = .urlError m ∨ responses q = .parseError m) →
      ∃ msg, (fetchPapers dc responses st current days categories).1 =
        .error (wrapFetchError msg)) := by
  constructor
  · intro now days acc results h
    exact fetchLoop_error now days results acc h
  · intro dc responses st current days categories h
    obtain ⟨q, hq, m, hcase⟩ := h
    have hmem : CatResult.urlError m ∈
          (((normalizeCategories dc categories).map buildQuery).map responses) ∨
        CatResult.parseError m ∈
          (((normalizeCategories dc categories).map buildQuery).map responses) := by
      rcases hcase with hc | hc
      · exact Or.inl (hc ▸ List.mem_map_of_mem responses hq)
      · exact Or.inr (hc ▸ List.mem_map_of_mem responses hq)
    obtain ⟨msg, hmsg⟩ := fetchLoop_error ((respectRateLimit st current).1) days
      (((normalizeCategories dc categories).map buildQuery).map responses) [] ⟨m, hmem⟩
    refine ⟨msg, ?_⟩
    have hfp : (fetchPapers dc responses st current days categories).1 =
        fetchLoop ((respectRateLimit st current).1) days []
          (((normalizeCategories dc categories).map buildQuery).map responses) := by
      unfold fetchPapers
      rcases hrr : respectRateLimit st current with ⟨t, st2⟩
      simp [hrr]
    rw [hfp, hmsg]

/-- C6 witness: a fetch whose second category query fails with a network
error aborts wholesale with the wrapped error, discarding the entry the
first category had already produced. -/
theorem c6_witness :
    (∃ m, CatResult.urlError m ∈
        [CatResult.ok [⟨"T", [], 0, "S", "L", []⟩], CatResult.urlError "connection refused"] ∨
      CatResult.parseError m ∈
        [CatResult.ok [⟨"T", [], 0, "S", "L", []⟩], CatResult.urlError "connection refused"]) ∧
    (∃ msg, fetchLoop 0 7 []
        [CatResult.ok [⟨"T", [], 0, "S", "L", []⟩], CatResult.urlError "connection refused"] =
      .error (wrapFetchError msg)) := by
  refine ⟨⟨"connection refused", Or.inl (by simp)⟩, ?_⟩
  exact c6_fetch_all_or_nothing.1 0 7 [] _ ⟨"connection refused", Or.inl (by simp)⟩

/-- C7: identifier resolution tries the candidate fields in precedence
order and the six patterns in fixed priority order, returning the first
match: an abstract-page URL with version resolves with its version, a raw
unversioned id resolves to itself, and an abstract-page match beats a
document (pdf) match even when the pdf URL occurs earlier in the
candidate string; when no candidate matches any pattern, a present raw
`arxiv_id` field is returned verbatim; and when no identifier can be
derived at all, resolution fails with the `ValueError` naming the fields
present on the input (the input carrying a title, per the paper data
model). -/
theorem c7_identifier_resolution :
    extractArxivIdFromLink "https://arxiv.org/abs/2401.12345v2" = some "2401.12345v2" ∧
    extractArxivIdFromLink "2401.12345" = some "2401.12345" ∧
    getArxivId [("title", .str "T"), ("link", .str "https://arxiv.org/abs/2401.12345v2")] =
      .ok "2401.12345v2" ∧
    extractArxivIdFromLink "x arxiv.org/pdf/1111.2222 arxiv.org/abs/3333.4444" =
      some "3333.4444" ∧
    extractArxivIdFromLink "arxiv.org/pdf/1111.2222v3" = some "1111.2222v3" ∧
    (∀ (p : PaperDict) (a : String),
      (∀ u ∈ possibleUrls p, extractArxivIdFromLink u = none) →
      lookupField p "arxiv_id" = some (.str a) →
      extractArxivIdFromLink a = none →
      getArxivId p = .ok a) ∧
    (∀ (p : PaperDict) (t : PVal),
      (∀ u ∈ possibleUrls p, extractArxivIdFromLink u = none) →
      lookupField p "arxiv_id" = none →
      lookupField p "title" = some t →
      getArxivId p = .error (.valueError (p.map (fun kv => kv.1)))) := by
  refine ⟨by decide, by decide, rfl, by decide, by decide, ?_, ?_⟩
  · intro p a hnone hid hext
    have h1 : (possibleUrls p).findSome? extractArxivIdFromLink = none :=
      findSome?_none_of_all _ _ hnone
    simp [getArxivId, h1, hid, hext]
  · intro p t hnone hid ht
    have h1 : (possibleUrls p).findSome? extractArxivIdFromLink = none :=
      findSome?_none_of_all _ _ hnone
    simp [getArxivId, h1, hid, ht]

/-- C7 witness: a paper with only a title and a raw, non-matching
`arxiv_id` resolves verbatim to that id; a paper with only a title and a
non-identifier field fails with the error naming its fields. -/
theorem c7_witness :
    (∀ u ∈ possibleUrls [("title", .str "T"), ("arxiv_id", .str "hep-th_9901001")],
      extractArxivIdFromLink u = none) ∧
    lookupField [("title", .str "T"), ("arxiv_id", .str "hep-th_9901001")] "arxiv_id" =
      some (.str "hep-th_9901001") ∧
    extractArxivIdFromLink "hep-th_9901001" = none ∧
    getArxivId [("title", .str "T"), ("arxiv_id", .str "hep-th_9901001")] =
      .ok "hep-th_9901001" ∧
    (∀ u ∈ possibleUrls [("title", .str "T"), ("note", .str "x")],
      extractArxivIdFromLink u = none) ∧
    lookupField [("title", .str "T"), ("note", .str "x")] "arxiv_id" = none ∧
    lookupField [("title", .str "T"), ("note", .str "x")] "title" = some (.str "T") ∧
    getArxivId [("title", .str "T"), ("note", .str "x")] =
      .error (.valueError ["title", "note"]) := by
  refine ⟨by decide, by decide, by decide, ?_, by decide, by decide, by decide, ?_⟩
  · exact (c7_identifier_resolution.2.2.2.2.2.1)
      [("title", .str "T"), ("arxiv_id", .str "hep-th_9901001")] "hep-th_9901001"
      (by decide) (by decide) (by decide)
  · exact (c7_identifier_resolution.2.2.2.2.2.2)
      [("title", .str "T"), ("note", .str "x")] (.str "T")
      (by decide) (by decide) (by decide)

/-- C1: the download stage is idempotent.  For an input whose papers all
resolve to (pairwise distinct) canonical ids, sanitize to distinct
directory names, and download successfully, the first run from an empty
log produces exactly one artifact directory per paper and exactly one
job-log entry per canonical id (with one download attempt per paper); the
second run over the same input leaves the state — log, directories, and
the count of side-effecting download invocations — completely unchanged,
every item short-circuiting on its logged id before any network call.
Independently of those hypotheses, the job log never acquires two entries
for one canonical id. -/
theorem c1_download_idempotent :
    (∀ (ok : PaperDict → Bool) (papers : List PaperDict),
      (∀ p ∈ papers, ∃ id, getArxivId p = .ok id) →
      (∀ p ∈ papers, ok p = true) →
      (idsOf papers).Nodup →
      (dirsOf papers).Nodup →
      downloadPapers ok ⟨[], [], 0⟩ papers =
        ⟨idsOf papers, dirsOf papers, papers.length⟩ ∧
      downloadPapers ok (downloadPapers ok ⟨[], [], 0⟩ papers) papers =
        downloadPapers ok ⟨[], [], 0⟩ papers) ∧
    (∀ (ok : PaperDict → Bool) (papers : List PaperDict) (st : DLState),
      st.logIds.Nodup → (downloadPapers ok st papers).logIds.Nodup) := by
  constructor
  · intro ok papers h1 h2 hni hnd
    have hrun1 := downloadPapers_fresh ok papers ⟨[], [], 0⟩ h1 h2 hni
      (by simp) hnd (by simp)
    simp only [List.nil_append, Nat.zero_add] at hrun1
    refine ⟨hrun1, ?_⟩
    rw [hrun1]
    apply downloadPapers_skip
    intro p hp
    obtain ⟨id, hid⟩ := h1 p hp
    refine ⟨id, hid, ?_⟩
    show id ∈ idsOf papers
    exact List.mem_filterMap.mpr ⟨p, hp, by rw [hid]; rfl⟩
  · intro ok papers st h
    exact downloadPapers_logNodup ok papers st h

/-- C1 witness: two concrete papers with distinct canonical ids and
distinct sanitized titles; the first run from the empty state logs both
ids, creates both directories and makes two download attempts, and the
second run changes nothing. -/
theorem c1_witness :
    (∀ p ∈ [[("title", PVal.str "Paper One"), ("link", PVal.str "https://arxiv.org/abs/2401.11111")],
            [("title", PVal.str "Paper Two"), ("link", PVal.str "https://arxiv.org/abs/2402.22222")]],
      ∃ id, getArxivId p = .ok id) ∧
    (idsOf [[("title", PVal.str "Paper One"), ("link", PVal.str "https://arxiv.org/abs/2401.11111")],
            [("title", PVal.str "Paper Two"), ("link", PVal.str "https://arxiv.org/abs/2402.22222")]]).Nodup ∧
    (dirsOf [[("title", PVal.str "Paper One"), ("link", PVal.str "https://arxiv.org/abs/2401.11111")],
            [("title", PVal.str "Paper Two"), ("link", PVal.str "https://arxiv.org/abs/2402.22222")]]).Nodup ∧
    (downloadPapers (fun _ => true) ⟨[], [], 0⟩
        [[("title", PVal.str "Paper One"), ("link", PVal.str "https://arxiv.org/abs/2401.11111")],
         [("title", PVal.str "Paper Two"), ("link", PVal.str "https://arxiv.org/abs/2402.22222")]] =
      ⟨["2401.11111", "2402.22222"], ["Paper One", "Paper Two"], 2⟩ ∧
    downloadPapers (fun _ => true)
        (downloadPapers (fun _ => true) ⟨[], [], 0⟩
          [[("title", PVal.str "Paper One"), ("link", PVal.str "https://arxiv.org/abs/2401.11111")],
           [("title", PVal.str "Paper Two"), ("link", PVal.str "https://arxiv.org/abs/2402.22222")]])
        [[("title", PVal.str "Paper One"), ("link", PVal.str "https://arxiv.org/abs/2401.11111")],
         [("title", PVal.str "Paper Two"), ("link", PVal.str "https://arxiv.org/abs/2402.22222")]] =
      downloadPapers (fun _ => true) ⟨[], [], 0⟩
        [[("title", PVal.str "Paper One"), ("link", PVal.str "https://arxiv.org/abs/2401.11111")],
         [("title", PVal.str "Paper Two"), ("link", PVal.str "https://arxiv.org/abs/2402.22222")]]) := by
  have hres : ∀ p ∈ [[("title", PVal.str "Paper One"), ("link", PVal.str "https://arxiv.org/abs/2401.11111")],
      [("title", PVal.str "Paper Two"), ("link", PVal.str "https://arxiv.org/abs/2402.22222")]],
      ∃ id, getArxivId p = .ok id := by
    intro p hp
    rcases List.mem_cons.mp hp with heq | hp2
    · exact ⟨"2401.11111", by rw [heq]; rfl⟩
    rcases List.mem_cons.mp hp2 with heq | hp3
    · exact ⟨"2402.22222", by rw [heq]; rfl⟩
    · exact absurd hp3 (List.not_mem_nil p)
  refine ⟨hres, by decide, by decide, ?_⟩
  have happ := (c1_download_idempotent.1 (fun _ => true)
    [[("title", PVal.str "Paper One"), ("link", PVal.str "https://arxiv.org/abs/2401.11111")],
     [("title", PVal.str "Paper Two"), ("link", PVal.str "https://arxiv.org/abs/2402.22222")]]
    hres (fun p _ => rfl) (by decide) (by decide))
  exact happ

end ResearchScraper
